import Mathlib

/-!
Shallow embedding of the media ingestion and status-synchronization engine
of the MindPalaceWeb repository.

The definitions below are transcribed from:
* `src/components/SpheresGrid.tsx` — merge layer (`mergeMediaUpdates`),
  polling loops, exponential backoff (`getNextDelay`), batch upload with
  retry (`processUpload`, `handleFileUpload`), deletion (`handleDeleteMedia`);
* `src/lib/api.ts` — `ApiClient.upload`, `ApiClient.getMedia`,
  `ApiClient.getMediaStatus`, and the error messages the client constructs;
* the earlier revision of the grid component (worker-pool based
  `processUploadsWithLimit`);
* `src/lib/types.ts` — the `Media` record and `MediaStatus`.

TypeScript optional / possibly-`undefined` fields are modelled as `Option`;
the `a ?? b` null-coalescing operator on such fields is `Option.or`.
Fallible remote calls are modelled by `Except` values supplied as explicit
parameters (the outcome of each network request), so the state transformers
of the component become pure functions of those outcomes.
-/

namespace MindPalace

/-- `MediaStatus` from `src/lib/types.ts`:
`'pending' | 'uploading' | 'processing' | 'ready' | 'error' | 'deleted'`. -/
inductive MediaStatus where
  | pending
  | uploading
  | processing
  | ready
  | error
  | deleted
deriving DecidableEq, Repr

/-- `type: "image" | "video" | "text"` from the `Media` interface. -/
inductive MediaKind where
  | image
  | video
  | text
deriving DecidableEq, Repr

/-- The `Media` interface of `src/lib/types.ts`.  Fields marked `?` in
TypeScript are `Option`; `status` is also `Option` because the merge layer
guards it with `upd.status ?? old.status`, i.e. it treats a runtime-absent
status as "no update" (partial update records may omit any field). -/
structure Media where
  id : String
  userId : String
  filename : String
  contentType : String
  size : Nat
  uploadDate : Nat
  kind : MediaKind
  status : Option MediaStatus
  palaceId : Option String
  sphereId : Option String
  processingJobId : Option String
  error : Option String
  url : Option String
  thumbnailUrl : Option String
  width : Option Nat
  height : Option Nat
  duration : Option Nat
deriving DecidableEq, Repr

/-! ## Reconciler (merge layer), `SpheresGrid.tsx` lines 117–142 -/

/-- The per-record merge performed inside `mergeMediaUpdates`:
`newList[idx] = { ...old, status: upd.status ?? old.status, url: upd.url ??
old.url, thumbnailUrl: upd.thumbnailUrl ?? old.thumbnailUrl, duration:
upd.duration ?? old.duration, width: upd.width ?? old.width, height:
upd.height ?? old.height }`.  All remaining fields come from the `...old`
spread. -/
def mergeOne (old upd : Media) : Media :=
  { old with
    status := upd.status.or old.status
    url := upd.url.or old.url
    thumbnailUrl := upd.thumbnailUrl.or old.thumbnailUrl
    duration := upd.duration.or old.duration
    width := upd.width.or old.width
    height := upd.height.or old.height }

/-- One iteration of the `for (const upd of updates)` loop: find the first
record with the update's id (`findIndex`) and replace it in place by the
merged record; an update whose id matches no record is ignored. -/
def applyUpdate : List Media → Media → List Media
  | [], _ => []
  | old :: rest, upd =>
    if old.id == upd.id then mergeOne old upd :: rest
    else old :: applyUpdate rest upd

/-- `mergeMediaUpdates(updates)` applied to the previous collection `prev`:
folds every update of the round into the list. -/
def mergeMediaUpdates (updates : List Media) (prev : List Media) : List Media :=
  updates.foldl applyUpdate prev

/-! ## Basic merge lemmas (shared by several claims) -/

theorem applyUpdate_length (l : List Media) (u : Media) :
    (applyUpdate l u).length = l.length := by
  induction l with
  | nil => rfl
  | cons old rest ih =>
    by_cases h : old.id == u.id <;> simp [applyUpdate, h, ih]

theorem mergeMediaUpdates_length (us : List Media) (prev : List Media) :
    (mergeMediaUpdates us prev).length = prev.length := by
  induction us generalizing prev with
  | nil => rfl
  | cons u rest ih =>
    simpa [mergeMediaUpdates, List.foldl] using
      (ih (applyUpdate prev u)).trans (applyUpdate_length prev u)

theorem mergeOne_id (old upd : Media) : (mergeOne old upd).id = old.id := rfl

/-! ## Deletion, `SpheresGrid.tsx` lines 373–383 (`handleDeleteMedia`) -/

/-- `handleDeleteMedia`: with no record marked for deletion it returns early;
otherwise it awaits `api.deleteMedia` (outcome passed in as `deleteOutcome`),
on success filters the record with the deleted id out of the collection, on
failure reports the error and leaves the collection unchanged; the `finally`
block clears `mediaToDelete` in every case that reaches the `try`. -/
def handleDeleteMedia (mediaToDelete : Option Media)
    (deleteOutcome : Except String Unit)
    (mediaItems : List Media) : List Media × Option Media :=
  match mediaToDelete with
  | none => (mediaItems, none)
  | some target =>
    match deleteOutcome with
    | .ok _ => (mediaItems.filter (fun m => m.id != target.id), none)
    | .error _ => (mediaItems, none)

/-! ## Relations preserved by the merge -/

/-- What one merge step preserves about a record: its identity, and the
presence of each of the server-derived fields (`url`, `thumbnailUrl`,
`width`, `height`, `duration`). -/
def knowledgeStep (a b : Media) : Prop :=
  b.id = a.id ∧
  (a.url.isSome = true → b.url.isSome = true) ∧
  (a.thumbnailUrl.isSome = true → b.thumbnailUrl.isSome = true) ∧
  (a.width.isSome = true → b.width.isSome = true) ∧
  (a.height.isSome = true → b.height.isSome = true) ∧
  (a.duration.isSome = true → b.duration.isSome = true)

theorem knowledgeStep_refl (a : Media) : knowledgeStep a a :=
  ⟨rfl, id, id, id, id, id⟩

theorem knowledgeStep_trans {a b c : Media}
    (hab : knowledgeStep a b) (hbc : knowledgeStep b c) : knowledgeStep a c :=
  ⟨hbc.1.trans hab.1,
   fun h => hbc.2.1 (hab.2.1 h),
   fun h => hbc.2.2.1 (hab.2.2.1 h),
   fun h => hbc.2.2.2.1 (hab.2.2.2.1 h),
   fun h => hbc.2.2.2.2.1 (hab.2.2.2.2.1 h),
   fun h => hbc.2.2.2.2.2 (hab.2.2.2.2.2 h)⟩

theorem isSome_or_of_isSome {α : Type} (a b : Option α) (h : b.isSome = true) :
    (a.or b).isSome = true := by
  cases a <;> simp_all [Option.or]

theorem knowledgeStep_mergeOne (old upd : Media) :
    knowledgeStep old (mergeOne old upd) :=
  ⟨rfl,
   isSome_or_of_isSome upd.url old.url,
   isSome_or_of_isSome upd.thumbnailUrl old.thumbnailUrl,
   isSome_or_of_isSome upd.width old.width,
   isSome_or_of_isSome upd.height old.height,
   isSome_or_of_isSome upd.duration old.duration⟩

theorem forall2_knowledgeStep_comp {l1 l2 l3 : List Media}
    (h12 : List.Forall₂ knowledgeStep l1 l2)
    (h23 : List.Forall₂ knowledgeStep l2 l3) :
    List.Forall₂ knowledgeStep l1 l3 := by
  induction h12 generalizing l3 with
  | nil => cases h23; exact List.Forall₂.nil
  | cons hab htail ih =>
    cases h23 with
    | cons hbc htail2 =>
      exact List.Forall₂.cons (knowledgeStep_trans hab hbc) (ih htail2)

theorem forall2_knowledgeStep_refl (l : List Media) :
    List.Forall₂ knowledgeStep l l := by
  induction l with
  | nil => exact List.Forall₂.nil
  | cons a rest ih => exact List.Forall₂.cons (knowledgeStep_refl a) ih

/-- Pointwise effect of one `applyUpdate` pass: the record at each position
is either untouched or merged with the matching update. -/
theorem applyUpdate_forall2 (l : List Media) (u : Media) :
    List.Forall₂ knowledgeStep l (applyUpdate l u) := by
  induction l with
  | nil => exact List.Forall₂.nil
  | cons old rest ih =>
    by_cases hid : old.id == u.id
    · simp only [applyUpdate, hid, if_true]
      exact List.Forall₂.cons (knowledgeStep_mergeOne old u)
        (forall2_knowledgeStep_refl rest)
    · simp only [applyUpdate, hid, if_false, Bool.false_eq_true]
      exact List.Forall₂.cons (knowledgeStep_refl old) ih

theorem mergeMediaUpdates_forall2 (us : List Media) (prev : List Media) :
    List.Forall₂ knowledgeStep prev (mergeMediaUpdates us prev) := by
  induction us generalizing prev with
  | nil => exact forall2_knowledgeStep_refl prev
  | cons u rest ih =>
    exact forall2_knowledgeStep_comp (applyUpdate_forall2 prev u)
      (ih (applyUpdate prev u))

theorem mergeMediaUpdates_get_knowledgeStep (us : List Media)
    (prev : List Media) (i : Nat) (h : i < prev.length)
    (h2 : i < (mergeMediaUpdates us prev).length) :
    knowledgeStep (prev.get ⟨i, h⟩) ((mergeMediaUpdates us prev).get ⟨i, h2⟩) :=
  (mergeMediaUpdates_forall2 us prev).get h h2

/-- The two application orders of a pair of updates agree exactly when, on
each merged field, `Option.or` of the two updates' values commutes, i.e.
when at most one update carries the field or both carry the same value. -/
def updateFieldsCommute (u1 u2 : Media) : Prop :=
  u1.status.or u2.status = u2.status.or u1.status ∧
  u1.url.or u2.url = u2.url.or u1.url ∧
  u1.thumbnailUrl.or u2.thumbnailUrl = u2.thumbnailUrl.or u1.thumbnailUrl ∧
  u1.duration.or u2.duration = u2.duration.or u1.duration ∧
  u1.width.or u2.width = u2.width.or u1.width ∧
  u1.height.or u2.height = u2.height.or u1.height

/-! ## Sample records used by the concrete witnesses -/

def sampleExisting : Media :=
  { id := "m1", userId := "u1", filename := "a.png",
    contentType := "image/png", size := 10, uploadDate := 100,
    kind := MediaKind.image, status := some MediaStatus.processing,
    palaceId := some "p1", sphereId := none, processingJobId := none,
    error := none, url := some "https://cdn/a", thumbnailUrl := none,
    width := none, height := none, duration := none }

/-- A partial update carrying `status`, `width` and `height` but no
`thumbnailUrl` (and no `url`). -/
def sampleUpdate : Media :=
  { sampleExisting with
    status := some MediaStatus.ready,
    url := none,
    thumbnailUrl := none,
    width := some 640,
    height := some 480 }

/-- A second record in `processing`, distinct id. -/
def sampleProcessing2 : Media :=
  { sampleExisting with
    id := "m2",
    url := none }

/-- The server response for `sampleExisting` after processing finished. -/
def sampleReadyUpdate : Media :=
  { sampleExisting with
    status := some MediaStatus.ready,
    thumbnailUrl := some "https://cdn/a-thumb" }

/-- A `ready` record with a missing thumbnail (a loop B target). -/
def sampleReadyNoThumb : Media :=
  { sampleExisting with
    id := "m3",
    status := some MediaStatus.ready }

/-- A response environment in which only the request for id `"m1"`
succeeds and every other request fails. -/
def sampleResp : String → Except String Media := fun s =>
  if s = "m1" then Except.ok sampleReadyUpdate else Except.error "network error"

/-- An update carrying a thumbnail and a conflicting status. -/
def sampleThumbUpdate : Media :=
  { sampleExisting with
    status := some MediaStatus.processing,
    url := none,
    thumbnailUrl := some "https://cdn/a-thumb",
    width := none,
    height := none }

/-! ## Adaptive polling delay, `SpheresGrid.tsx` lines 71–80 -/

/-- `getNextDelay = (current, max = 30000) => Math.min(current * 2, max)`;
every call site uses the default ceiling. -/
def getNextDelay (current : Nat) : Nat :=
  min (current * 2) 30000

/-- Initial value of the `pollDelayMs` state (loop A base delay). -/
def pollDelayInit : Nat := 2000

/-- Initial value of the `missingUrlDelayMs` state (loop B base delay). -/
def missingUrlDelayInit : Nat := 3000

/-- The delays at which successive poll rounds run.  Each list entry is one
activation of the polling effect: the first component tells whether the
loop's target set is non-empty when the effect runs, the second whether it
is still non-empty when the round's `finally` block updates the delay.  When
the set is empty the effect resets the delay to the base and schedules no
round (`if (processingMedia.length === 0) { setPollDelayMs(2000); return }`);
otherwise a round runs after the current delay and the `finally` block either
doubles the delay (`getNextDelay`) or resets it to the base. -/
def loopDelays (base : Nat) : Nat → List (Bool × Bool) → List Nat
  | _, [] => []
  | d, (ne, still) :: rest =>
    if ne then d :: loopDelays base (if still then getNextDelay d else base) rest
    else loopDelays base base rest

/-! ## Polling rounds, `SpheresGrid.tsx` lines 151–245 -/

/-- Loop A target predicate:
`["uploading", "processing", "pending"].includes(m.status)`. -/
def isPoll1Target (m : Media) : Bool :=
  m.status == some MediaStatus.uploading ||
  m.status == some MediaStatus.processing ||
  m.status == some MediaStatus.pending

def poll1Targets (items : List Media) : List Media :=
  items.filter isPoll1Target

/-- Loop B target predicate: `m.status === "ready" && !m.thumbnailUrl`
(an empty string is falsy in JavaScript, so it also counts as missing). -/
def isPoll2Target (m : Media) : Bool :=
  m.status == some MediaStatus.ready &&
    (match m.thumbnailUrl with
     | none => true
     | some s => s == "")

def poll2Targets (items : List Media) : List Media :=
  items.filter isPoll2Target

/-- `Promise.all(processingMedia.map((m) => api.getMediaStatus(m.id)))`:
the round's result is the list of all responses, or a rejection as soon as
any single request fails.  `resp` gives the outcome of the status request
for each media id. -/
def requestAll (resp : String → Except String Media) :
    List Media → Except String (List Media)
  | [] => Except.ok []
  | m :: rest =>
    match resp m.id with
    | Except.error e => Except.error e
    | Except.ok u =>
      match requestAll resp rest with
      | Except.error e => Except.error e
      | Except.ok us => Except.ok (u :: us)

/-- One round of poll #1 applied to the collection: on a rejected
`Promise.all` the `catch` block only logs, so no update of the round is
merged; on success every response is merged. -/
def poll1Round (resp : String → Except String Media)
    (items : List Media) : List Media :=
  match requestAll resp (poll1Targets items) with
  | Except.ok updates => mergeMediaUpdates updates items
  | Except.error _ => items

/-- Poll #2's per-record loop: each request is wrapped in its own
`try/catch`, a failure is logged and skipped, a success is pushed onto
`updates`. -/
def collectSuccesses (resp : String → Except String Media) :
    List Media → List Media
  | [] => []
  | m :: rest =>
    match resp m.id with
    | Except.ok u => u :: collectSuccesses resp rest
    | Except.error _ => collectSuccesses resp rest

/-- One round of poll #2: merge the successful responses
(`if (updates.length > 0) mergeMediaUpdates(updates)`). -/
def poll2Round (resp : String → Except String Media)
    (items : List Media) : List Media :=
  let updates := collectSuccesses resp (poll2Targets items)
  if 0 < updates.length then mergeMediaUpdates updates items else items

/-! ## Supporting lemmas for the polling claims -/

theorem mergeMediaUpdates_nil (items : List Media) :
    mergeMediaUpdates [] items = items := rfl

theorem requestAll_ne_ok (resp : String → Except String Media)
    (ts : List Media) (x : Media) (hx : x ∈ ts)
    (hfail : ∀ u, resp x.id ≠ Except.ok u) :
    ∀ us, requestAll resp ts ≠ Except.ok us := by
  induction ts with
  | nil => cases hx
  | cons m rest ih =>
    intro us
    rcases List.mem_cons.mp hx with rfl | hx'
    · cases hm : resp x.id with
      | error e => simp [requestAll, hm]
      | ok u => exact absurd hm (hfail u)
    · cases hm : resp m.id with
      | error e => simp [requestAll, hm]
      | ok u =>
        cases hrest : requestAll resp rest with
        | error e => simp [requestAll, hm, hrest]
        | ok us' => exact absurd hrest (ih hx' us')

theorem mem_applyUpdate_of_id_ne (l : List Media) (u : Media) (m : Media)
    (hm : m ∈ l) (hne : u.id ≠ m.id) : m ∈ applyUpdate l u := by
  induction l with
  | nil => cases hm
  | cons old rest ih =>
    rcases List.mem_cons.mp hm with rfl | hm'
    · have hid : (m.id == u.id) = false := by
        simp [Ne.symm hne]
      simp [applyUpdate, hid]
    · by_cases hid : old.id == u.id
      · simp only [applyUpdate, hid, if_true, List.mem_cons]
        exact Or.inr hm'
      · simp only [applyUpdate, hid, Bool.false_eq_true, if_false,
          List.mem_cons]
        exact Or.inr (ih hm')

theorem mem_mergeMediaUpdates_of_id_ne (us : List Media) (items : List Media)
    (m : Media) (hm : m ∈ items) (hne : ∀ u ∈ us, u.id ≠ m.id) :
    m ∈ mergeMediaUpdates us items := by
  induction us generalizing items with
  | nil => exact hm
  | cons u rest ih =>
    exact ih (applyUpdate items u)
      (mem_applyUpdate_of_id_ne items u m hm (hne u (by simp)))
      (fun v hv => hne v (by simp [hv]))

theorem mem_collectSuccesses (resp : String → Except String Media)
    (ts : List Media) (u : Media) (hu : u ∈ collectSuccesses resp ts) :
    ∃ x ∈ ts, resp x.id = Except.ok u := by
  induction ts with
  | nil => cases hu
  | cons m rest ih =>
    cases hm : resp m.id with
    | ok v =>
      rw [collectSuccesses, hm] at hu
      rcases List.mem_cons.mp hu with rfl | hu'
      · exact ⟨m, by simp, hm⟩
      · obtain ⟨x, hx, hrx⟩ := ih hu'
        exact ⟨x, by simp [hx], hrx⟩
    | error e =>
      rw [collectSuccesses, hm] at hu
      obtain ⟨x, hx, hrx⟩ := ih hu
      exact ⟨x, by simp [hx], hrx⟩

/-! ## Transport client, `src/lib/api.ts` -/

/-- The failures `ApiClient` can throw: `get`/`post`/`put`/`delete` throw
`new Error("API error: " + response.statusText)`, the S3 transfer in
`upload` throws `new Error("Upload failed: " + uploadResponse.statusText)`,
and `getHeaders` throws `new Error("No authentication token available")`. -/
inductive ApiError where
  | apiError (statusText : String)
  | uploadFailed (statusText : String)
  | noAuthToken
deriving DecidableEq, Repr

def ApiError.message : ApiError → String
  | ApiError.apiError s => "API error: " ++ s
  | ApiError.uploadFailed s => "Upload failed: " ++ s
  | ApiError.noAuthToken => "No authentication token available"

theorem ApiError.message_ne_empty (e : ApiError) : e.message ≠ "" := by
  intro h
  have hlen := congrArg String.length h
  cases e <;> simp [ApiError.message, String.length_append] at hlen
  · exact absurd hlen.1 (by decide)
  · exact absurd hlen.1 (by decide)
  · exact absurd hlen (by decide)

/-- The `MediaResponse` server list item of `api.ts` (the three S3 key
fields are never read by the engine and are omitted). -/
structure MediaResponse where
  id : String
  userId : String
  filename : String
  contentType : String
  size : Nat
  uploadDate : Nat
  lastModified : Nat
  kind : MediaKind
  status : MediaStatus
  palaceId : Option String
  sphereId : Option String
  processingJobId : Option String
  error : Option String
  duration : Option Nat
  width : Option Nat
  height : Option Nat
deriving DecidableEq, Repr

/-- The part of `MediaStatusResponse` that `getMedia` reads per item. -/
structure StatusUrls where
  url : String
  thumbnailUrl : String
deriving DecidableEq, Repr

/-- `RETRY_LIMIT` of the per-item loop inside `getMedia`. -/
def URL_RETRY_LIMIT : Nat := 3

/-- `BASE_DELAY_MS` of the per-item loop inside `getMedia`. -/
def URL_BASE_DELAY_MS : Nat := 150

/-- The `while (!success && attempt < RETRY_LIMIT)` loop of `getMedia`:
`f a` is the outcome of the `a`-th status request for the item.  Returns
the fetched URLs (or `none` after exhaustion) and the list of backoff
sleeps performed, each `2 ^ attempt * BASE_DELAY_MS` for the attempt that
just failed (the sleep is executed in the `catch` block, so one also
follows the final failed attempt). -/
def urlRetry (f : Nat → Except ApiError StatusUrls) :
    Nat → Nat → Option StatusUrls × List Nat
  | _, 0 => (none, [])
  | attempt, r + 1 =>
    match f (attempt + 1) with
    | Except.ok p => (some p, [])
    | Except.error _ =>
      let next := urlRetry f (attempt + 1) r
      (next.1, 2 ^ (attempt + 1) * URL_BASE_DELAY_MS :: next.2)

/-- The combined media item `getMedia` builds for one listed item:
URLs from the retry loop when it succeeded, absent otherwise. -/
def mediaFromResponse (item : MediaResponse) (urls : Option StatusUrls) :
    Media :=
  { id := item.id, userId := item.userId, filename := item.filename,
    contentType := item.contentType, size := item.size,
    uploadDate := item.uploadDate, kind := item.kind,
    status := some item.status, palaceId := item.palaceId,
    sphereId := item.sphereId, processingJobId := item.processingJobId,
    error := item.error,
    url := urls.map StatusUrls.url,
    thumbnailUrl := urls.map StatusUrls.thumbnailUrl,
    width := item.width, height := item.height,
    duration := item.duration }

/-- `ApiClient.getMedia`: the outer `try/catch` returns `[]` when the list
request fails; otherwise every listed item is mapped — in order — to a
combined record, with the per-item URL fetch retried. -/
def getMedia (listResult : Except ApiError (List MediaResponse))
    (f : String → Nat → Except ApiError StatusUrls) : List Media :=
  match listResult with
  | Except.error _ => []
  | Except.ok mediaList =>
    mediaList.map (fun item =>
      mediaFromResponse item (urlRetry (f item.id) 0 URL_RETRY_LIMIT).1)

/-! ## `ApiClient.upload` progress reporting and the per-file task -/

/-- `UploadProgress` from `src/lib/types.ts`. -/
structure UploadProgress where
  mediaId : String
  progress : Nat
  status : MediaStatus
  error : Option String
deriving DecidableEq, Repr

/-- `UploadState` of `SpheresGrid.tsx` (`UploadProgress` plus the
filename). -/
structure UploadState where
  filename : String
  mediaId : String
  progress : Nat
  status : MediaStatus
  error : Option String
deriving DecidableEq, Repr

/-- The progress reports `ApiClient.upload` issues on its success path:
`onProgress({mediaId, progress: 0, status: "uploading"})` right after the
pre-signed URL is obtained, and `onProgress({mediaId, progress: 100,
status: "processing"})` right after the S3 transfer completes. -/
def apiUploadEvents (mediaId : String) : List UploadProgress :=
  [⟨mediaId, 0, MediaStatus.uploading, none⟩,
   ⟨mediaId, 100, MediaStatus.processing, none⟩]

/-- The upload entry created for each file when the batch is submitted:
`{filename, progress: 0, status: "uploading", mediaId: "", error:
undefined}`. -/
def initUpload (fname : String) : UploadState :=
  ⟨fname, "", 0, MediaStatus.uploading, none⟩

/-- The progress callback in `processUpload` updates only `progress` and
`mediaId` (`progress.mediaId || u.mediaId`; the empty string is falsy) —
not the status. -/
def applyProgress (u : UploadState) (p : UploadProgress) : UploadState :=
  { u with
    progress := p.progress,
    mediaId := if p.mediaId = "" then u.mediaId else p.mediaId }

/-- `setUploads` marking the task `uploading` at the start of an attempt. -/
def markUploading (u : UploadState) : UploadState :=
  { u with status := MediaStatus.uploading }

/-- `setUploads` after `api.upload` resolves: `{...u, status:
"processing", progress: 100, mediaId: media.id}`. -/
def markProcessing (u : UploadState) (m : Media) : UploadState :=
  { u with
    status := MediaStatus.processing,
    progress := 100,
    mediaId := m.id }

/-- The task state after all of `api.upload`'s progress reports landed. -/
def afterEvents (fname mid : String) : UploadState :=
  (apiUploadEvents mid).foldl applyProgress (markUploading (initUpload fname))

/-- How one `api.upload` call can end, by where in its protocol it throws:
* `failEarly` — `getHeaders` or the `POST /media/upload` throws, before any
  progress report;
* `failTransfer` — the S3 `fetch` response is not ok, after the 0-report;
* `failStatus` — the final `getMediaStatus` call rethrows, after **both**
  the 0-report and the 100-report;
* `success` — both reports issued and the media returned. -/
inductive AttemptOutcome where
  | failEarly (e : ApiError)
  | failTransfer (mid : String) (e : ApiError)
  | failStatus (mid : String) (e : ApiError)
  | success (mid : String) (m : Media)
deriving DecidableEq, Repr

/-- The progress reports one `api.upload` attempt issues before it
returns or throws (prefixes of `apiUploadEvents`). -/
def attemptEvents : AttemptOutcome → List UploadProgress
  | AttemptOutcome.failEarly _ => []
  | AttemptOutcome.failTransfer mid _ => [⟨mid, 0, MediaStatus.uploading, none⟩]
  | AttemptOutcome.failStatus mid _ => apiUploadEvents mid
  | AttemptOutcome.success mid _ => apiUploadEvents mid

/-- The task states observed during one attempt: the `setUploads` marking
the task `uploading` at the attempt's start, then the state after each
progress report of that attempt. -/
def attemptTrace (u : UploadState) (o : AttemptOutcome) : List UploadState :=
  List.scanl applyProgress (markUploading u) (attemptEvents o)

/-- The task state an attempt leaves behind. -/
def afterAttempt (u : UploadState) (o : AttemptOutcome) : UploadState :=
  (attemptEvents o).foldl applyProgress (markUploading u)

def afterAttempts : UploadState → List AttemptOutcome → UploadState
  | u, [] => u
  | u, o :: rest => afterAttempts (afterAttempt u o) rest

/-- The task states observed over a sequence of attempts of
`processUpload`'s retry loop (each retried attempt re-marks the task
`uploading` and re-issues its reports from 0). -/
def attemptsTrace : UploadState → List AttemptOutcome → List UploadState
  | _, [] => []
  | u, o :: rest => attemptTrace u o ++ attemptsTrace (afterAttempt u o) rest

/-- The successive states of a file's `UploadState` across a run of
`processUpload` whose listed attempts end with a success: the initial
entry, the states during every attempt, then the post-`await` transition
to `processing`. -/
def taskTrace (fname : String) (outcomes : List AttemptOutcome)
    (m : Media) : List UploadState :=
  initUpload fname :: attemptsTrace (initUpload fname) outcomes
    ++ [markProcessing (afterAttempts (initUpload fname) outcomes) m]

/-- A run whose first attempt fails at the `getMediaStatus` step — i.e.
after the 100-report — and whose second attempt succeeds. -/
def sampleRetryOutcomes : List AttemptOutcome :=
  [AttemptOutcome.failStatus "m1" (ApiError.apiError "Bad Gateway"),
   AttemptOutcome.success "m1" sampleExisting]

/-! ## Upload scheduler, `SpheresGrid.tsx` lines 250–370 -/

/-- `MAX_CONCURRENT_UPLOADS` in `handleFileUpload`. -/
def MAX_CONCURRENT_UPLOADS : Nat := 5

/-- `RETRY_LIMIT` in `handleFileUpload`. -/
def RETRY_LIMIT : Nat := 3

/-- The fixed `setTimeout(r, 800)` delay between upload attempts. -/
def RETRY_DELAY_MS : Nat := 800

/-- Result of `processUpload`'s `while (!success && attempts < RETRY_LIMIT)`
loop: the created media on success, the `lastError` variable, the final
value of the `attempts` counter, and the retry sleeps performed. -/
structure AttemptLoopResult where
  media : Option Media
  lastError : Option ApiError
  attempts : Nat
  delays : List Nat
deriving Repr

/-- The retry loop of `processUpload`: `f a` is the outcome of the `a`-th
`api.upload` call for this file.  A failed attempt stores the error and, if
more attempts remain (`attempts < RETRY_LIMIT`), sleeps 800 ms. -/
def uploadAttempts (f : Nat → Except ApiError Media) :
    Nat → Option ApiError → Nat → AttemptLoopResult
  | attemptsDone, lastErr, 0 => ⟨none, lastErr, attemptsDone, []⟩
  | attemptsDone, lastErr, r + 1 =>
    match f (attemptsDone + 1) with
    | Except.ok m => ⟨some m, lastErr, attemptsDone + 1, []⟩
    | Except.error err =>
      let o := uploadAttempts f (attemptsDone + 1) (some err) r
      if attemptsDone + 1 < RETRY_LIMIT
      then { o with delays := RETRY_DELAY_MS :: o.delays }
      else o

/-- `processUpload(file)`: runs the attempt loop; on success the task is
marked `processing` with progress 100 and the new media id; on exhaustion
the task is marked `error` with the last failure's message (`lastError
instanceof Error ? lastError.message : "Upload failed. Unknown error."`;
the modelled client always throws `Error`s, carried here as `ApiError`).
Returns the final task state, the number of attempts performed and the
sleeps taken.  (The failure branch shown is the one in which the attempts
fail at the upload-target request, before any progress report; no claim
concerns `progress`/`mediaId` of a failed task.) -/
def processUpload (fname : String) (f : Nat → Except ApiError Media) :
    UploadState × Nat × List Nat :=
  let o := uploadAttempts f 0 none RETRY_LIMIT
  match o.media with
  | some m => (markProcessing (afterEvents fname m.id) m, o.attempts, o.delays)
  | none =>
    ({ initUpload fname with
        status := MediaStatus.error,
        error := some (match o.lastError with
          | some err => err.message
          | none => "Upload failed. Unknown error.") },
      o.attempts, o.delays)

/-- The FIFO launch order of `handleFileUpload`'s outer loop: each
iteration shifts up to `MAX_CONCURRENT_UPLOADS` files off the queue. -/
def chunkQueue : List String → List (List String)
  | [] => []
  | x :: rest =>
    (x :: rest).take MAX_CONCURRENT_UPLOADS ::
      chunkQueue ((x :: rest).drop MAX_CONCURRENT_UPLOADS)
termination_by q => q.length
decreasing_by
  simp only [List.length_drop, List.length_cons, MAX_CONCURRENT_UPLOADS]
  omega

/-- The per-file terminal task states produced by a batch: every queued
file is launched exactly once (the outer loop's control flow never
inspects outcomes — `processUpload` catches all its errors and the raced
rejection is swallowed by `.catch(() => {})`), and each file's terminal
state is computed by its own `processUpload` run. -/
def handleFileUploadTasks (files : List String)
    (f : String → Nat → Except ApiError Media) : List UploadState :=
  ((chunkQueue files).map
    (fun chunk => chunk.map (fun fn => (processUpload fn (f fn)).1))).flatten

theorem chunkQueue_join_aux (n : Nat) :
    ∀ q : List String, q.length ≤ n → (chunkQueue q).flatten = q := by
  induction n with
  | zero =>
    intro q hq
    have : q = [] := List.eq_nil_of_length_eq_zero (Nat.le_zero.mp hq)
    subst this
    simp [chunkQueue]
  | succ n ih =>
    intro q hq
    cases q with
    | nil => simp [chunkQueue]
    | cons x rest =>
      have hdrop : ((x :: rest).drop MAX_CONCURRENT_UPLOADS).length ≤ n := by
        simp only [List.length_drop, List.length_cons, MAX_CONCURRENT_UPLOADS]
        have := List.length_cons x rest ▸ hq
        omega
      calc (chunkQueue (x :: rest)).flatten
          = (x :: rest).take MAX_CONCURRENT_UPLOADS
              ++ (chunkQueue ((x :: rest).drop MAX_CONCURRENT_UPLOADS)).flatten := by
            rw [chunkQueue]; rfl
        _ = (x :: rest).take MAX_CONCURRENT_UPLOADS
              ++ (x :: rest).drop MAX_CONCURRENT_UPLOADS := by
            rw [ih _ hdrop]
        _ = x :: rest := List.take_append_drop _ _

theorem chunkQueue_join (q : List String) : (chunkQueue q).flatten = q :=
  chunkQueue_join_aux q.length q (Nat.le_refl _)

/-- The chunked launch structure processes exactly the submitted files, in
order, each through its own `processUpload`. -/
theorem handleFileUploadTasks_eq_map (files : List String)
    (f : String → Nat → Except ApiError Media) :
    handleFileUploadTasks files f
      = files.map (fun fn => (processUpload fn (f fn)).1) := by
  unfold handleFileUploadTasks
  rw [show (fun chunk => List.map (fun fn => (processUpload fn (f fn)).1) chunk)
      = List.map (fun fn => (processUpload fn (f fn)).1) from rfl]
  rw [← List.map_flatten, chunkQueue_join]

/-! ### In-flight accounting of `handleFileUpload`'s concurrency loop

The outer loop builds a **fresh** `concurrent` array per iteration,
launches up to `MAX_CONCURRENT_UPLOADS` queued files into it, and then only
awaits `Promise.race(concurrent)` — i.e. the settlement of one promise of
the *current* chunk.  Promises of earlier chunks that are still pending
stay in flight.  The state below tracks the queue length, the unsettled
uploads of the current chunk, the unsettled uploads of earlier chunks,
whether the loop is suspended at the `race` (`awaiting`), and whether a
promise of the current chunk has settled since its launch (which is what
resolves the race).  Settlements can only occur while the single-threaded
loop is suspended at an `await` (or after the loop, when the queue is
empty, during `Promise.allSettled`). -/

structure RaceState where
  queued : Nat
  chunk : Nat
  older : Nat
  awaiting : Bool
  chunkSettled : Bool
deriving DecidableEq, Repr

/-- Transfers in flight: unsettled `processUpload` promises (each is
executing its transfer protocol). -/
def inFlightCount (s : RaceState) : Nat := s.chunk + s.older

inductive RaceStep : RaceState → RaceState → Prop where
  | launch (q c o : Nat) (cs : Bool) (hq : 0 < q) :
      RaceStep ⟨q, c, o, false, cs⟩
        ⟨q - min MAX_CONCURRENT_UPLOADS q, min MAX_CONCURRENT_UPLOADS q,
         c + o, true, false⟩
  | settleChunk (q c o : Nat) (aw cs : Bool) (hp : aw = true ∨ q = 0) :
      RaceStep ⟨q, c + 1, o, aw, cs⟩ ⟨q, c, o, aw, true⟩
  | settleOlder (q c o : Nat) (aw cs : Bool) (hp : aw = true ∨ q = 0) :
      RaceStep ⟨q, c, o + 1, aw, cs⟩ ⟨q, c, o, aw, cs⟩
  | raceDone (q c o : Nat) :
      RaceStep ⟨q, c, o, true, true⟩ ⟨q, c, o, false, true⟩

/-- Executions of `handleFileUpload` on a batch of `n` files. -/
inductive RaceReachable (n : Nat) : RaceState → Prop where
  | init : RaceReachable n ⟨n, 0, 0, false, false⟩
  | step {s t : RaceState} (hs : RaceReachable n s) (hst : RaceStep s t) :
      RaceReachable n t

/-! ### The worker pool of the earlier revision (`processUploadsWithLimit`)

`processUploadsWithLimit(files, limit)` starts `Math.min(limit,
files.length)` workers; each worker repeatedly claims the next index and
awaits exactly one `uploadFileWithProgress` at a time, exiting when the
index runs past the file count.  The state counts workers by phase. -/

structure PoolState where
  nextIndex : Nat
  idleW : Nat
  busyW : Nat
  exitedW : Nat
deriving DecidableEq, Repr

inductive PoolStep (n : Nat) : PoolState → PoolState → Prop where
  | pick (s : PoolState) (h : 0 < s.idleW) (hn : s.nextIndex < n) :
      PoolStep n s ⟨s.nextIndex + 1, s.idleW - 1, s.busyW + 1, s.exitedW⟩
  | finish (s : PoolState) (h : 0 < s.busyW) :
      PoolStep n s ⟨s.nextIndex, s.idleW + 1, s.busyW - 1, s.exitedW⟩
  | exitLoop (s : PoolState) (h : 0 < s.idleW) (hn : n ≤ s.nextIndex) :
      PoolStep n s ⟨s.nextIndex, s.idleW - 1, s.busyW, s.exitedW + 1⟩

inductive PoolReachable (n : Nat) : PoolState → Prop where
  | init : PoolReachable n ⟨0, min MAX_CONCURRENT_UPLOADS n, 0, 0⟩
  | step {s t : PoolState} (hs : PoolReachable n s) (hst : PoolStep n s t) :
      PoolReachable n t

theorem pool_worker_count (n : Nat) (s : PoolState)
    (hs : PoolReachable n s) :
    s.idleW + s.busyW + s.exitedW = min MAX_CONCURRENT_UPLOADS n := by
  induction hs with
  | init => rfl
  | step _ hst ih =>
    cases hst with
    | pick h hn => simp only at ih ⊢; omega
    | finish h => simp only at ih ⊢; omega
    | exitLoop h hn => simp only at ih ⊢; omega

end MindPalace

namespace MindPalace

/-- C2: the merge layer folds a partial update into an existing record per
individual field: each of the six merged fields (`status`, `url`,
`thumbnailUrl`, `duration`, `width`, `height`) is overwritten exactly when
the update's value for it is present, an absent field retains the existing
record's value, and every other field of the existing record is kept
unchanged — so an update missing only `thumbnailUrl` still updates
`status`, `width` or `height` when those are present. -/
theorem merge_per_field_presence (old upd : Media) :
    (upd.status = none → (mergeOne old upd).status = old.status) ∧
    (upd.url = none → (mergeOne old upd).url = old.url) ∧
    (upd.thumbnailUrl = none → (mergeOne old upd).thumbnailUrl = old.thumbnailUrl) ∧
    (upd.duration = none → (mergeOne old upd).duration = old.duration) ∧
    (upd.width = none → (mergeOne old upd).width = old.width) ∧
    (upd.height = none → (mergeOne old upd).height = old.height) ∧
    (∀ v, upd.status = some v → (mergeOne old upd).status = some v) ∧
    (∀ v, upd.url = some v → (mergeOne old upd).url = some v) ∧
    (∀ v, upd.thumbnailUrl = some v → (mergeOne old upd).thumbnailUrl = some v) ∧
    (∀ v, upd.duration = some v → (mergeOne old upd).duration = some v) ∧
    (∀ v, upd.width = some v → (mergeOne old upd).width = some v) ∧
    (∀ v, upd.height = some v → (mergeOne old upd).height = some v) ∧
    (mergeOne old upd).id = old.id ∧
    (mergeOne old upd).userId = old.userId ∧
    (mergeOne old upd).filename = old.filename ∧
    (mergeOne old upd).contentType = old.contentType ∧
    (mergeOne old upd).size = old.size ∧
    (mergeOne old upd).uploadDate = old.uploadDate ∧
    (mergeOne old upd).kind = old.kind ∧
    (mergeOne old upd).palaceId = old.palaceId ∧
    (mergeOne old upd).sphereId = old.sphereId ∧
    (mergeOne old upd).processingJobId = old.processingJobId ∧
    (mergeOne old upd).error = old.error := by
  refine ⟨?_, ?_, ?_, ?_, ?_, ?_, ?_, ?_, ?_, ?_, ?_, ?_,
    rfl, rfl, rfl, rfl, rfl, rfl, rfl, rfl, rfl, rfl, rfl⟩ <;>
    first
      | (intro h; simp [mergeOne, h])
      | (intro v h; simp [mergeOne, h])

/-- Witness for C2 at a concrete record and a concrete partial update that
carries `status`, `width`, `height` and omits `thumbnailUrl`. -/
theorem merge_per_field_presence_witness :
    (mergeOne sampleExisting sampleUpdate).thumbnailUrl
        = sampleExisting.thumbnailUrl ∧
    (mergeOne sampleExisting sampleUpdate).status = some MediaStatus.ready ∧
    (mergeOne sampleExisting sampleUpdate).width = some 640 ∧
    (mergeOne sampleExisting sampleUpdate).height = some 480 ∧
    (mergeOne sampleExisting sampleUpdate).url = sampleExisting.url := by
  have h := merge_per_field_presence sampleExisting sampleUpdate
  exact ⟨h.2.2.1 rfl, h.2.2.2.2.2.2.1 MediaStatus.ready rfl,
    h.2.2.2.2.2.2.2.2.2.2.1 640 rfl,
    h.2.2.2.2.2.2.2.2.2.2.2.1 480 rfl, h.2.1 rfl⟩

/-- C3 as stated is false on the code: when the two updates both carry some
other field (here `status`) with different present values, the two
application orders yield different records even though exactly one of the
updates carries `thumbnailUrl`.  `u1` carries `thumbnailUrl` and status
`processing`; `u2` carries no `thumbnailUrl` and status `ready`. -/
theorem merge_commutative_counterexample :
    sampleThumbUpdate.thumbnailUrl = some "https://cdn/a-thumb" ∧
    sampleUpdate.thumbnailUrl = none ∧
    mergeOne (mergeOne sampleExisting sampleUpdate) sampleThumbUpdate
      ≠ mergeOne (mergeOne sampleExisting sampleThumbUpdate) sampleUpdate := by
  refine ⟨rfl, rfl, ?_⟩
  intro h
  have := congrArg Media.status h
  simp [mergeOne, sampleExisting, sampleUpdate, sampleThumbUpdate] at this

/-- C3 amended: for a record `r` and updates `u1` (with `thumbnailUrl`
present) and `u2` (with `thumbnailUrl` absent), the final `thumbnailUrl`
equals `u1`'s value in either application order; the merge is idempotent
(re-applying the same update changes nothing); and the two orders yield the
same whole record exactly when no other field is carried with conflicting
present values by both updates (per-field `Option.or` commutes). -/
theorem merge_commutative_amended (r u1 u2 : Media) (t : String)
    (h1 : u1.thumbnailUrl = some t) (h2 : u2.thumbnailUrl = none) :
    (mergeOne (mergeOne r u2) u1).thumbnailUrl = some t ∧
    (mergeOne (mergeOne r u1) u2).thumbnailUrl = some t ∧
    (∀ u, mergeOne (mergeOne r u) u = mergeOne r u) ∧
    (updateFieldsCommute u1 u2 →
      mergeOne (mergeOne r u2) u1 = mergeOne (mergeOne r u1) u2) := by
  refine ⟨by simp [mergeOne, h1], by simp [mergeOne, h1, h2], ?_, ?_⟩
  · intro u
    have hor : ∀ {α : Type} (a b : Option α), a.or (a.or b) = a.or b := by
      intro α a b; cases a <;> simp
    simp only [mergeOne]
    cases r
    simp [hor]
  · intro hc
    obtain ⟨c1, c2, c3, c4, c5, c6⟩ := hc
    have key : ∀ {α : Type} (a b c : Option α),
        a.or b = b.or a → a.or (b.or c) = b.or (a.or c) := by
      intro α a b c hab
      rw [← Option.or_assoc, hab, Option.or_assoc]
    simp only [mergeOne]
    cases r
    simp [key _ _ _ c1, key _ _ _ c2, key _ _ _ c3, key _ _ _ c4,
      key _ _ _ c5, key _ _ _ c6]

/-- Witness for the amended C3 at concrete records: `sampleThumbUpdate`
carries a thumbnail, `sampleUpdate` does not. -/
theorem merge_commutative_amended_witness :
    (mergeOne (mergeOne sampleExisting sampleUpdate)
        sampleThumbUpdate).thumbnailUrl = some "https://cdn/a-thumb" ∧
    (mergeOne (mergeOne sampleExisting sampleThumbUpdate)
        sampleUpdate).thumbnailUrl = some "https://cdn/a-thumb" ∧
    (∀ u, mergeOne (mergeOne sampleExisting u) u = mergeOne sampleExisting u) ∧
    (updateFieldsCommute sampleThumbUpdate sampleUpdate →
      mergeOne (mergeOne sampleExisting sampleUpdate) sampleThumbUpdate
        = mergeOne (mergeOne sampleExisting sampleThumbUpdate) sampleUpdate) :=
  merge_commutative_amended sampleExisting sampleThumbUpdate sampleUpdate
    "https://cdn/a-thumb" rfl rfl

/-- C4: merging server-sourced updates never makes a derived field
(`thumbnailUrl`, `url`, `width`, `height`, `duration`) absent again once it
is non-absent: after folding any round of updates into the collection, the
record at every position still has every derived field that it had before
(and the collection keeps its length). -/
theorem merge_monotonic_knowledge (us prev : List Media) (i : Nat)
    (h : i < prev.length) :
    ∃ h2 : i < (mergeMediaUpdates us prev).length,
      knowledgeStep (prev.get ⟨i, h⟩) ((mergeMediaUpdates us prev).get ⟨i, h2⟩) := by
  have hlen : i < (mergeMediaUpdates us prev).length := by
    simpa [mergeMediaUpdates_length] using h
  exact ⟨hlen, mergeMediaUpdates_get_knowledgeStep us prev i h hlen⟩

/-- Witness for C4: a concrete one-record collection whose `url` is present
and an update that omits `url`; after the merge the field is still present. -/
theorem merge_monotonic_knowledge_witness :
    0 < [sampleExisting].length ∧
    ∃ h2 : 0 < (mergeMediaUpdates [sampleUpdate] [sampleExisting]).length,
      knowledgeStep ([sampleExisting].get ⟨0, by decide⟩)
        ((mergeMediaUpdates [sampleUpdate] [sampleExisting]).get ⟨0, h2⟩) :=
  ⟨by decide, merge_monotonic_knowledge [sampleUpdate] [sampleExisting] 0 (by decide)⟩

/-- C9: a record leaves the collection only through the explicit deletion
entry point: a successful `deleteMedia` removes exactly the records bearing
the deleted id and keeps every other record; a failed delete request leaves
the collection unchanged; and a merge of polled updates never removes a
record — the collection keeps its length and the record at every position
keeps its id. -/
theorem removal_only_by_deletion (target : Media) (items : List Media)
    (e : String) (us : List Media) (i : Nat) (h : i < items.length) :
    (∀ m, m ∈ (handleDeleteMedia (some target) (Except.ok ()) items).1 ↔
        m ∈ items ∧ m.id ≠ target.id) ∧
    (handleDeleteMedia (some target) (Except.error e) items).1 = items ∧
    (mergeMediaUpdates us items).length = items.length ∧
    ∃ h2 : i < (mergeMediaUpdates us items).length,
      ((mergeMediaUpdates us items).get ⟨i, h2⟩).id = (items.get ⟨i, h⟩).id := by
  refine ⟨?_, rfl, mergeMediaUpdates_length us items, ?_⟩
  · intro m
    simp [handleDeleteMedia, List.mem_filter, bne_iff_ne]
  · have hlen : i < (mergeMediaUpdates us items).length := by
      simpa [mergeMediaUpdates_length] using h
    exact ⟨hlen, (mergeMediaUpdates_get_knowledgeStep us items i h hlen).1⟩

/-- Witness for C9 at a concrete collection, delete target, transport error
and update round. -/
theorem removal_only_by_deletion_witness :
    0 < [sampleExisting].length ∧
    ((∀ m, m ∈ (handleDeleteMedia (some sampleExisting) (Except.ok ())
          [sampleExisting]).1 ↔
        m ∈ [sampleExisting] ∧ m.id ≠ sampleExisting.id) ∧
     (handleDeleteMedia (some sampleExisting) (Except.error "network")
        [sampleExisting]).1 = [sampleExisting] ∧
     (mergeMediaUpdates [sampleUpdate] [sampleExisting]).length
        = [sampleExisting].length ∧
     ∃ h2 : 0 < (mergeMediaUpdates [sampleUpdate] [sampleExisting]).length,
       ((mergeMediaUpdates [sampleUpdate] [sampleExisting]).get ⟨0, h2⟩).id
          = ([sampleExisting].get ⟨0, by decide⟩).id) :=
  ⟨by decide, removal_only_by_deletion sampleExisting [sampleExisting]
    "network" [sampleUpdate] 0 (by decide)⟩

/-- C6 is false for poll #1: its round awaits
`Promise.all(processingMedia.map(...))`, so one record's failing request
rejects the whole round and the `catch` block drops every response of that
round.  Concretely: records `m1`, `m2` are both `processing`; `m1`'s status
request succeeds with a `ready` update, `m2`'s fails; the code leaves the
collection completely unchanged, although merging the successful response
would have changed it. -/
theorem poll1_aborts_round_counterexample :
    sampleResp "m1" = Except.ok sampleReadyUpdate ∧
    sampleResp "m2" = Except.error "network error" ∧
    isPoll1Target sampleExisting = true ∧
    isPoll1Target sampleProcessing2 = true ∧
    poll1Round sampleResp [sampleExisting, sampleProcessing2]
      = [sampleExisting, sampleProcessing2] ∧
    mergeMediaUpdates [sampleReadyUpdate] [sampleExisting, sampleProcessing2]
      ≠ [sampleExisting, sampleProcessing2] := by
  refine ⟨rfl, rfl, by decide, by decide, by decide, by decide⟩

/-- C6 amended: the two loops differ.  In poll #2 each record's request has
its own `try/catch`, so the round's successful responses are merged even
when another record's request fails, and a failed record stays in the
target set for the next round.  In poll #1 a single record's failure
rejects the round's `Promise.all`: no response of that round (successful or
not) is merged, the error is only logged, the collection is unchanged, and
the whole target set is retried on the loop's next round. -/
theorem poll_round_error_handling (items : List Media)
    (resp : String → Except String Media)
    (hresp : ∀ s u, resp s = Except.ok u → u.id = s)
    (m : Media) (hm : m ∈ poll1Targets items)
    (e : String) (he : resp m.id = Except.error e) :
    poll1Round resp items = items ∧
    poll2Round resp items
      = mergeMediaUpdates (collectSuccesses resp (poll2Targets items)) items ∧
    (∀ m2 ∈ poll2Targets items, (∀ u, resp m2.id ≠ Except.ok u) →
      m2 ∈ poll2Targets (poll2Round resp items)) := by
  have hfail : ∀ u, resp m.id ≠ Except.ok u := by
    intro u h; rw [he] at h; cases h
  have h2 : poll2Round resp items
      = mergeMediaUpdates (collectSuccesses resp (poll2Targets items)) items := by
    unfold poll2Round
    by_cases h : 0 < (collectSuccesses resp (poll2Targets items)).length
    · simp [h]
    · have hnil : collectSuccesses resp (poll2Targets items) = [] :=
        List.length_eq_zero.mp (Nat.eq_zero_of_not_pos h)
      simp [h, hnil, mergeMediaUpdates_nil]
  refine ⟨?_, h2, ?_⟩
  · unfold poll1Round
    cases h : requestAll resp (poll1Targets items) with
    | ok us => exact absurd h (requestAll_ne_ok resp _ m hm hfail us)
    | error e' => rfl
  · intro m2 hm2 hfail2
    have hmem := List.mem_filter.mp hm2
    have hids : ∀ u ∈ collectSuccesses resp (poll2Targets items),
        u.id ≠ m2.id := by
      intro u hu hcontra
      obtain ⟨x, hx, hok⟩ := mem_collectSuccesses resp _ u hu
      have hxid : u.id = x.id := hresp x.id u hok
      rw [hcontra] at hxid
      rw [← hxid] at hok
      exact hfail2 u hok
    rw [h2]
    exact List.mem_filter.mpr
      ⟨mem_mergeMediaUpdates_of_id_ne _ items m2 hmem.1 hids, hmem.2⟩

/-- Witness for the amended C6: collection with two `processing` records
and one `ready` record missing its thumbnail; only `m1`'s request succeeds. -/
theorem poll_round_error_handling_witness :
    sampleProcessing2 ∈
      poll1Targets [sampleExisting, sampleProcessing2, sampleReadyNoThumb] ∧
    sampleResp sampleProcessing2.id = Except.error "network error" ∧
    (poll1Round sampleResp [sampleExisting, sampleProcessing2, sampleReadyNoThumb]
       = [sampleExisting, sampleProcessing2, sampleReadyNoThumb] ∧
     poll2Round sampleResp [sampleExisting, sampleProcessing2, sampleReadyNoThumb]
       = mergeMediaUpdates
          (collectSuccesses sampleResp
            (poll2Targets [sampleExisting, sampleProcessing2, sampleReadyNoThumb]))
          [sampleExisting, sampleProcessing2, sampleReadyNoThumb] ∧
     (∀ m2 ∈ poll2Targets [sampleExisting, sampleProcessing2, sampleReadyNoThumb],
        (∀ u, sampleResp m2.id ≠ Except.ok u) →
        m2 ∈ poll2Targets
          (poll2Round sampleResp
            [sampleExisting, sampleProcessing2, sampleReadyNoThumb]))) := by
  have hresp : ∀ s u, sampleResp s = Except.ok u → u.id = s := by
    intro s u h
    by_cases hs : s = "m1"
    · subst hs
      have hv : (Except.ok sampleReadyUpdate : Except String Media)
          = Except.ok u := by
        have hr : sampleResp "m1" = Except.ok sampleReadyUpdate := rfl
        rw [← hr]; exact h.symm ▸ rfl
      cases hv
      rfl
    · simp [sampleResp, hs] at h
  refine ⟨by decide, rfl, ?_⟩
  exact poll_round_error_handling
    [sampleExisting, sampleProcessing2, sampleReadyNoThumb] sampleResp hresp
    sampleProcessing2 (by decide) "network error" rfl

/-- A server list item used by the C10 witness. -/
def sampleItem : MediaResponse :=
  { id := "m9", userId := "u1", filename := "b.mp4",
    contentType := "video/mp4", size := 999, uploadDate := 5,
    lastModified := 6, kind := MediaKind.video,
    status := MediaStatus.ready, palaceId := some "p1", sphereId := none,
    processingJobId := none, error := none, duration := some 12,
    width := some 1920, height := some 1080 }

/-- A transport environment in which every per-item status request fails. -/
def sampleFailingUrls : String → Nat → Except ApiError StatusUrls :=
  fun _ _ => Except.error (ApiError.apiError "Service Unavailable")

/-- C10: `getMedia` is total over transport failures — a failed media-list
request yields `[]` rather than a thrown error; on success it returns
exactly one combined record per listed item, in list order; and an item
whose per-item URL fetch fails on all 3 attempts (with a
`2 ^ attempt * 150` ms backoff sleep after each failed attempt, hence
between consecutive attempts) is still returned, with `url` and
`thumbnailUrl` left absent. -/
theorem getMedia_total_over_failures (l : List MediaResponse)
    (f : String → Nat → Except ApiError StatusUrls) (e : ApiError)
    (item : MediaResponse) (hitem : item ∈ l)
    (err1 err2 err3 : ApiError)
    (h1 : f item.id 1 = Except.error err1)
    (h2 : f item.id 2 = Except.error err2)
    (h3 : f item.id 3 = Except.error err3) :
    getMedia (Except.error e) f = [] ∧
    (getMedia (Except.ok l) f).length = l.length ∧
    (getMedia (Except.ok l) f).map Media.id = l.map MediaResponse.id ∧
    urlRetry (f item.id) 0 URL_RETRY_LIMIT
      = (none, [2 ^ 1 * URL_BASE_DELAY_MS, 2 ^ 2 * URL_BASE_DELAY_MS,
                2 ^ 3 * URL_BASE_DELAY_MS]) ∧
    mediaFromResponse item none ∈ getMedia (Except.ok l) f ∧
    (mediaFromResponse item none).id = item.id ∧
    (mediaFromResponse item none).url = none ∧
    (mediaFromResponse item none).thumbnailUrl = none := by
  have hr : urlRetry (f item.id) 0 URL_RETRY_LIMIT
      = (none, [2 ^ 1 * URL_BASE_DELAY_MS, 2 ^ 2 * URL_BASE_DELAY_MS,
                2 ^ 3 * URL_BASE_DELAY_MS]) := by
    simp [URL_RETRY_LIMIT, urlRetry, h1, h2, h3]
  refine ⟨rfl, by simp [getMedia], ?_, hr, ?_, rfl, rfl, rfl⟩
  · simp [getMedia, List.map_map, Function.comp, mediaFromResponse]
  · have hmem := List.mem_map_of_mem
      (fun it => mediaFromResponse it (urlRetry (f it.id) 0 URL_RETRY_LIMIT).1)
      hitem
    simp only [hr] at hmem
    simpa [getMedia] using hmem

/-- Witness for C10: a one-item list whose per-item requests always fail
with HTTP 503. -/
theorem getMedia_total_over_failures_witness :
    getMedia (Except.error ApiError.noAuthToken) sampleFailingUrls = [] ∧
    (getMedia (Except.ok [sampleItem]) sampleFailingUrls).length
      = [sampleItem].length ∧
    (getMedia (Except.ok [sampleItem]) sampleFailingUrls).map Media.id
      = [sampleItem].map MediaResponse.id ∧
    urlRetry (sampleFailingUrls sampleItem.id) 0 URL_RETRY_LIMIT
      = (none, [2 ^ 1 * URL_BASE_DELAY_MS, 2 ^ 2 * URL_BASE_DELAY_MS,
                2 ^ 3 * URL_BASE_DELAY_MS]) ∧
    mediaFromResponse sampleItem none
      ∈ getMedia (Except.ok [sampleItem]) sampleFailingUrls ∧
    (mediaFromResponse sampleItem none).id = sampleItem.id ∧
    (mediaFromResponse sampleItem none).url = none ∧
    (mediaFromResponse sampleItem none).thumbnailUrl = none :=
  getMedia_total_over_failures [sampleItem] sampleFailingUrls
    ApiError.noAuthToken sampleItem (by decide)
    (ApiError.apiError "Service Unavailable")
    (ApiError.apiError "Service Unavailable")
    (ApiError.apiError "Service Unavailable") rfl rfl rfl

/-- The progress callback never changes a task's status, so every state
produced while applying an attempt's reports keeps the status the attempt
started with. -/
theorem scanl_applyProgress_status (events : List UploadProgress) :
    ∀ u : UploadState, u.status = MediaStatus.uploading →
      ∀ t ∈ List.scanl applyProgress u events,
        t.status = MediaStatus.uploading := by
  induction events with
  | nil =>
    intro u hu t ht
    simp only [List.scanl] at ht
    rcases List.mem_singleton.mp ht with rfl
    exact hu
  | cons e rest ih =>
    intro u hu t ht
    simp only [List.scanl] at ht
    rcases List.mem_cons.mp ht with rfl | ht'
    · exact hu
    · exact ih (applyProgress u e) hu t ht'

theorem mem_attemptsTrace_status (outcomes : List AttemptOutcome) :
    ∀ u : UploadState, ∀ t ∈ attemptsTrace u outcomes,
      t.status = MediaStatus.uploading := by
  induction outcomes with
  | nil => intro u t ht; cases ht
  | cons o rest ih =>
    intro u t ht
    rcases List.mem_append.mp ht with h1 | h2
    · exact scanl_applyProgress_status (attemptEvents o) (markUploading u)
        rfl t h1
    · exact ih (afterAttempt u o) t h2

theorem attemptsTrace_append (l1 l2 : List AttemptOutcome) :
    ∀ u : UploadState, attemptsTrace u (l1 ++ l2)
      = attemptsTrace u l1 ++ attemptsTrace (afterAttempts u l1) l2 := by
  induction l1 with
  | nil => intro u; simp [attemptsTrace, afterAttempts]
  | cons o rest ih =>
    intro u
    simp [attemptsTrace, afterAttempts, ih, List.append_assoc]

/-- C8 is false on the code: an attempt can fail *after* the 100-report —
`api.upload` issues `onProgress({progress: 100, status: "processing"})`
and only then awaits `getMediaStatus`, which rethrows on failure — and
`processUpload`'s retry re-issues the 0-report while the task's status is
still `uploading` (the callback never changes status).  For the concrete
run whose first attempt fails at the status fetch and whose second attempt
succeeds, the task's uploading-phase states all have status `uploading`
but their progress sequence is 0,0,0,100,100,0,100 — not non-decreasing. -/
theorem upload_progress_counterexample :
    (∀ t ∈ (taskTrace "a.png" sampleRetryOutcomes sampleExisting).dropLast,
        t.status = MediaStatus.uploading) ∧
    (taskTrace "a.png" sampleRetryOutcomes sampleExisting).map
        UploadState.progress = [0, 0, 0, 100, 100, 0, 100, 100] ∧
    ¬ List.Chain' (fun a b => a.progress ≤ b.progress)
        (taskTrace "a.png" sampleRetryOutcomes sampleExisting) := by
  refine ⟨by decide, by decide, ?_⟩
  intro hch
  have hmap : (taskTrace "a.png" sampleRetryOutcomes sampleExisting).map
      UploadState.progress = [0, 0, 0, 100, 100, 0, 100, 100] := by decide
  have h2 : List.Chain' (fun a b : Nat => a ≤ b)
      ((taskTrace "a.png" sampleRetryOutcomes sampleExisting).map
        UploadState.progress) := (List.chain'_map _).mpr hch
  rw [hmap] at h2
  simp [List.chain'_cons] at h2

/-- C8 amended: progress reports are monotonically non-decreasing *within
each upload attempt* (0, then 100 once the transfer completes); a retried
attempt re-issues a 0-report, so across a retry boundary the uploading-
phase progress is not monotone.  For every run of the retry loop that ends
in a successful attempt — after any number and kind of failed attempts —
the task stays `uploading` throughout the phase, the last uploading-phase
state has progress 100, and the task then transitions to `processing`,
never directly to `ready`. -/
theorem upload_progress_amended (fname mid : String) (m : Media)
    (failures : List AttemptOutcome) :
    (∀ o : AttemptOutcome, List.Chain' (fun a b => a ≤ b)
        ((attemptEvents o).map UploadProgress.progress)) ∧
    (∀ t ∈ (taskTrace fname (failures ++ [AttemptOutcome.success mid m])
        m).dropLast, t.status = MediaStatus.uploading) ∧
    (taskTrace fname (failures ++ [AttemptOutcome.success mid m])
        m).dropLast.getLast?.map UploadState.progress = some 100 ∧
    (taskTrace fname (failures ++ [AttemptOutcome.success mid m])
        m).getLast?.map UploadState.status = some MediaStatus.processing ∧
    (taskTrace fname (failures ++ [AttemptOutcome.success mid m])
        m).getLast?.map UploadState.status ≠ some MediaStatus.ready := by
  have htrace : taskTrace fname (failures ++ [AttemptOutcome.success mid m]) m
      = (initUpload fname ::
          attemptsTrace (initUpload fname)
            (failures ++ [AttemptOutcome.success mid m]))
        ++ [markProcessing
             (afterAttempts (initUpload fname)
               (failures ++ [AttemptOutcome.success mid m])) m] := by
    simp [taskTrace]
  have hdrop : (taskTrace fname (failures ++ [AttemptOutcome.success mid m])
        m).dropLast
      = initUpload fname ::
          attemptsTrace (initUpload fname)
            (failures ++ [AttemptOutcome.success mid m]) := by
    rw [htrace, List.dropLast_concat]
  have hlast : (taskTrace fname (failures ++ [AttemptOutcome.success mid m])
        m).getLast?
      = some (markProcessing
          (afterAttempts (initUpload fname)
            (failures ++ [AttemptOutcome.success mid m])) m) := by
    rw [htrace]
    exact List.getLast?_concat _
  have hsucc : attemptTrace (afterAttempts (initUpload fname) failures)
        (AttemptOutcome.success mid m)
      = [markUploading (afterAttempts (initUpload fname) failures),
         applyProgress
           (markUploading (afterAttempts (initUpload fname) failures))
           ⟨mid, 0, MediaStatus.uploading, none⟩,
         applyProgress
           (applyProgress
             (markUploading (afterAttempts (initUpload fname) failures))
             ⟨mid, 0, MediaStatus.uploading, none⟩)
           ⟨mid, 100, MediaStatus.processing, none⟩] := by
    simp [attemptTrace, attemptEvents, apiUploadEvents, List.scanl]
  have hsplit : attemptsTrace (initUpload fname)
        (failures ++ [AttemptOutcome.success mid m])
      = attemptsTrace (initUpload fname) failures
        ++ attemptTrace (afterAttempts (initUpload fname) failures)
             (AttemptOutcome.success mid m) := by
    rw [attemptsTrace_append]
    simp [attemptsTrace]
  refine ⟨?_, ?_, ?_, ?_, ?_⟩
  · intro o
    cases o <;> simp [attemptEvents, apiUploadEvents, List.chain'_cons]
  · intro t ht
    rw [hdrop] at ht
    rcases List.mem_cons.mp ht with rfl | ht'
    · rfl
    · exact mem_attemptsTrace_status _ _ t ht'
  · rw [hdrop, hsplit, hsucc]
    have hform : ∀ (l : List UploadState) (x a b c : UploadState),
        x :: (l ++ [a, b, c]) = (x :: l ++ [a, b]) ++ [c] := by
      intro l x a b c; simp
    rw [hform, List.getLast?_concat]
    rfl
  · rw [hlast]; rfl
  · rw [hlast]; simp [markProcessing]

/-- An attempt environment in which every `api.upload` call fails. -/
def sampleFailingUpload : Nat → Except ApiError Media :=
  fun _ => Except.error (ApiError.apiError "Gateway Timeout")

/-- One unfolding step of the attempt loop on a failed attempt. -/
theorem uploadAttempts_step_error (f : Nat → Except ApiError Media)
    (a : Nat) (le : Option ApiError) (r : Nat) (err : ApiError)
    (h : f (a + 1) = Except.error err) :
    uploadAttempts f a le (r + 1)
      = (let o := uploadAttempts f (a + 1) (some err) r
         if a + 1 < RETRY_LIMIT
         then { o with delays := RETRY_DELAY_MS :: o.delays }
         else o) := by
  simp [uploadAttempts, h]

/-- C5: a file whose transfer fails on every attempt gets exactly 3
attempts with a fixed 800 ms sleep between consecutive attempts (none
after the last), ends with status `error` and a non-empty error message
carrying the last failure's message; and a batch's per-file outcomes are
isolated — every submitted file is processed by its own `processUpload`
run, so one file's exhaustion never blocks a sibling's progress. -/
theorem retry_exhaustion_isolated (fname : String)
    (f : Nat → Except ApiError Media) (e1 e2 e3 : ApiError)
    (h1 : f 1 = Except.error e1) (h2 : f 2 = Except.error e2)
    (h3 : f 3 = Except.error e3)
    (files : List String) (g : String → Nat → Except ApiError Media) :
    RETRY_LIMIT = 3 ∧ RETRY_DELAY_MS = 800 ∧
    (processUpload fname f).2.1 = 3 ∧
    (processUpload fname f).2.2 = [RETRY_DELAY_MS, RETRY_DELAY_MS] ∧
    (processUpload fname f).1.status = MediaStatus.error ∧
    (processUpload fname f).1.error = some (ApiError.message e3) ∧
    ApiError.message e3 ≠ "" ∧
    handleFileUploadTasks files g
      = files.map (fun fn => (processUpload fn (g fn)).1) := by
  have s3 : uploadAttempts f 2 (some e2) 1 = ⟨none, some e3, 3, []⟩ := by
    rw [uploadAttempts_step_error f 2 (some e2) 0 e3 h3]
    simp [uploadAttempts, RETRY_LIMIT]
  have s2 : uploadAttempts f 1 (some e1) 2
      = ⟨none, some e3, 3, [RETRY_DELAY_MS]⟩ := by
    rw [uploadAttempts_step_error f 1 (some e1) 1 e2 h2]
    simp [s3, RETRY_LIMIT]
  have s1 : uploadAttempts f 0 none RETRY_LIMIT
      = ⟨none, some e3, 3, [RETRY_DELAY_MS, RETRY_DELAY_MS]⟩ := by
    have hrl : RETRY_LIMIT = 2 + 1 := rfl
    rw [hrl, uploadAttempts_step_error f 0 none 2 e1 h1]
    simp [s2, RETRY_LIMIT]
  refine ⟨rfl, rfl, ?_, ?_, ?_, ?_, ApiError.message_ne_empty e3,
    handleFileUploadTasks_eq_map files g⟩ <;>
    simp [processUpload, s1, initUpload]

/-- Witness for C5: every attempt fails with HTTP 504 for a two-file
batch. -/
theorem retry_exhaustion_isolated_witness :
    RETRY_LIMIT = 3 ∧ RETRY_DELAY_MS = 800 ∧
    (processUpload "a.png" sampleFailingUpload).2.1 = 3 ∧
    (processUpload "a.png" sampleFailingUpload).2.2
      = [RETRY_DELAY_MS, RETRY_DELAY_MS] ∧
    (processUpload "a.png" sampleFailingUpload).1.status
      = MediaStatus.error ∧
    (processUpload "a.png" sampleFailingUpload).1.error
      = some (ApiError.message (ApiError.apiError "Gateway Timeout")) ∧
    ApiError.message (ApiError.apiError "Gateway Timeout") ≠ "" ∧
    handleFileUploadTasks ["a.png", "b.png"] (fun _ => sampleFailingUpload)
      = ["a.png", "b.png"].map
          (fun fn => (processUpload fn ((fun _ => sampleFailingUpload) fn)).1) :=
  retry_exhaustion_isolated "a.png" sampleFailingUpload
    (ApiError.apiError "Gateway Timeout") (ApiError.apiError "Gateway Timeout")
    (ApiError.apiError "Gateway Timeout") rfl rfl rfl
    ["a.png", "b.png"] (fun _ => sampleFailingUpload)

/-- C1: the bounded-concurrency claim fails on the current
`handleFileUpload`.  The earlier `processUploadsWithLimit` worker pool does
keep at most `min(5, N)` transfers in flight (second conjunct: at most
`min(5, n)` workers are ever busy).  But the current loop awaits only
`Promise.race` over the freshly launched chunk, so with a batch of 7 files
there is an execution in which one upload of the first chunk of 5 settles,
the loop launches the 2 remaining files while 4 are still in flight, and 6
transfers are in flight at once — more than `min(5, 7) = 5`. -/
theorem bounded_concurrency_code_bug :
    MAX_CONCURRENT_UPLOADS = 5 ∧
    (∀ n s, PoolReachable n s → s.busyW ≤ min MAX_CONCURRENT_UPLOADS n) ∧
    ¬ (∀ s, RaceReachable 7 s → inFlightCount s ≤ min MAX_CONCURRENT_UPLOADS 7) := by
  refine ⟨rfl, ?_, ?_⟩
  · intro n s hs
    have h := pool_worker_count n s hs
    omega
  · intro hall
    have h0 : RaceReachable 7 ⟨7, 0, 0, false, false⟩ := RaceReachable.init
    have e1 : RaceStep ⟨7, 0, 0, false, false⟩ ⟨2, 5, 0, true, false⟩ := by
      have h := RaceStep.launch 7 0 0 false (by decide)
      simpa [MAX_CONCURRENT_UPLOADS] using h
    have r1 := RaceReachable.step h0 e1
    have e2 : RaceStep ⟨2, 5, 0, true, false⟩ ⟨2, 4, 0, true, true⟩ :=
      RaceStep.settleChunk 2 4 0 true false (Or.inl rfl)
    have r2 := RaceReachable.step r1 e2
    have e3 : RaceStep ⟨2, 4, 0, true, true⟩ ⟨2, 4, 0, false, true⟩ :=
      RaceStep.raceDone 2 4 0
    have r3 := RaceReachable.step r2 e3
    have e4 : RaceStep ⟨2, 4, 0, false, true⟩ ⟨0, 2, 4, true, false⟩ := by
      have h := RaceStep.launch 2 4 0 true (by decide)
      simpa [MAX_CONCURRENT_UPLOADS] using h
    have r4 := RaceReachable.step r3 e4
    have hb := hall _ r4
    simp [inFlightCount, MAX_CONCURRENT_UPLOADS] at hb

/-- C7: each polling loop starts at its base delay (loop A 2000 ms, loop B
3000 ms); after a round whose target set is still non-empty the next delay
is `min(2 * current, 30000)`; a round that empties the target set, or an
activation that finds it empty, resets the delay, so the first round after
the set becomes non-empty again runs at the base delay whatever the prior
delay `d` was. -/
theorem polling_backoff_reset (d : Nat) (s1 s2 : Bool)
    (rest : List (Bool × Bool)) :
    pollDelayInit = 2000 ∧ missingUrlDelayInit = 3000 ∧
    getNextDelay d = min (2 * d) 30000 ∧
    (∀ base, (loopDelays base base ((true, s1) :: rest)).head? = some base) ∧
    (∀ base, loopDelays base d ((true, true) :: (true, s2) :: rest)
        = d :: getNextDelay d
            :: loopDelays base
                 (if s2 then getNextDelay (getNextDelay d) else base) rest) ∧
    (∀ base, loopDelays base d ((true, false) :: (true, s2) :: rest)
        = d :: base
            :: loopDelays base (if s2 then getNextDelay base else base) rest) ∧
    (∀ base, (loopDelays base d ((false, s1) :: (true, s2) :: rest)).head?
        = some base) := by
  refine ⟨rfl, rfl, by simp [getNextDelay, Nat.mul_comm], ?_, ?_, ?_, ?_⟩ <;>
    intro base <;> simp [loopDelays]

end MindPalace
